import Mathlib

/-!
Shallow embedding of `get_hist.py` (IBKR historical data downloader).

Each definition mirrors one Python function of the source file.  External
collaborators that the source delegates to (the IB client, pandas timestamp
parsing, pytz, the system clock, the filesystem and the interactive prompt)
enter the embedding as explicit parameters, so that every function here is a
total computable function of its inputs.
-/

/-- Character of one decimal digit, as Python renders integers. -/
def digitChar : Nat → Char
  | 0 => '0' | 1 => '1' | 2 => '2' | 3 => '3' | 4 => '4'
  | 5 => '5' | 6 => '6' | 7 => '7' | 8 => '8' | 9 => '9'
  | _ => '*'

/-- Decimal digits of `n`, most significant first.  Structured on `fuel` so
the kernel can evaluate it; `fuel = n` is always sufficient. -/
def decStrGo : Nat → Nat → List Char
  | 0, n => [digitChar (n % 10)]
  | fuel + 1, n => if n < 10 then [digitChar n] else decStrGo fuel (n / 10) ++ [digitChar (n % 10)]

/-- Decimal digit list of a natural number. -/
def decChars (n : Nat) : List Char := decStrGo n n

/-- Python `str` applied to a natural number. -/
def decStr (n : Nat) : String := ⟨decChars n⟩

/-- Python `str` applied to an integer. -/
def intStr (i : Int) : String := if i < 0 then "-" ++ decStr i.natAbs else decStr i.natAbs

/-- Python zero padding `format(n, "0wd")`: pad with zeros to width `w`,
never truncating. -/
def padZeros (w n : Nat) : String := ⟨List.replicate (w - (decChars n).length) '0' ++ decChars n⟩

/-- The value a digit list denotes in decimal, folded from accumulator `a`.
Used to invert the renderers above. -/
def decodeFrom (a : Nat) (ds : List Char) : Nat := ds.foldl (fun x c => 10 * x + (c.toNat - 48)) a

/-- Naive datetime, mirroring Python `datetime.datetime` (microseconds are
dropped: the source never renders or compares them in a way a claim sees). -/
structure DateTime where
  year : Nat
  month : Nat
  day : Nat
  hour : Nat
  minute : Nat
  second : Nat
deriving DecidableEq, Repr

/-- Gregorian leap-year rule used by Python `datetime`. -/
def isLeap (y : Nat) : Bool := (y % 4 == 0 && y % 100 != 0) || (y % 400 == 0)

/-- Days in a month, as Python `calendar`/`datetime` validate them. -/
def daysInMonth (y m : Nat) : Nat :=
  match m with
  | 1 => 31 | 2 => if isLeap y then 29 else 28 | 3 => 31 | 4 => 30 | 5 => 31 | 6 => 30
  | 7 => 31 | 8 => 31 | 9 => 30 | 10 => 31 | 11 => 30 | 12 => 31
  | _ => 0

/-- Days in the year strictly before month `m` (Python `_days_before_month`). -/
def daysBeforeMonth (y m : Nat) : Nat :=
  (match m with
   | 1 => 0 | 2 => 31 | 3 => 59 | 4 => 90 | 5 => 120 | 6 => 151 | 7 => 181
   | 8 => 212 | 9 => 243 | 10 => 273 | 11 => 304 | 12 => 334
   | _ => 365)
  + (if 3 ≤ m ∧ isLeap y then 1 else 0)

/-- Days strictly before January 1st of year `y` (Python `_days_before_year`). -/
def daysBeforeYear (y : Nat) : Nat :=
  365 * (y - 1) + (y - 1) / 4 - (y - 1) / 100 + (y - 1) / 400

/-- Python `date.toordinal`: day number with `0001-01-01` as day 1. -/
def toOrdinal (dt : DateTime) : Nat :=
  daysBeforeYear dt.year + daysBeforeMonth dt.year dt.month + dt.day

/-- Seconds since the proleptic epoch; Python datetime subtraction works on
this quantity. -/
def dtSecs (dt : DateTime) : Nat :=
  toOrdinal dt * 86400 + dt.hour * 3600 + dt.minute * 60 + dt.second

/-- `dt.time() != datetime.min.time()` from the source: true when the parsed
value carries a (non-midnight) time of day. -/
def hasTimeB (dt : DateTime) : Bool := !(dt.hour == 0 && dt.minute == 0 && dt.second == 0)

/-- Python datetime comparison `a > b` (tuple-lexicographic on components). -/
def dtGtB (a b : DateTime) : Bool :=
  if a.year ≠ b.year then decide (b.year < a.year)
  else if a.month ≠ b.month then decide (b.month < a.month)
  else if a.day ≠ b.day then decide (b.day < a.day)
  else if a.hour ≠ b.hour then decide (b.hour < a.hour)
  else if a.minute ≠ b.minute then decide (b.minute < a.minute)
  else decide (b.second < a.second)

/-- Python `dt.replace(hour=h, minute=mi, second=s)`. -/
def setTime (dt : DateTime) (h mi s : Nat) : DateTime :=
  { dt with hour := h, minute := mi, second := s }

/-- Python `dt + timedelta(days=1)` on a valid datetime: calendar rollover,
time of day preserved. -/
def addOneDay (dt : DateTime) : DateTime :=
  if dt.day < daysInMonth dt.year dt.month then { dt with day := dt.day + 1 }
  else if dt.month < 12 then { dt with month := dt.month + 1, day := 1 }
  else { dt with year := dt.year + 1, month := 1, day := 1 }

/-- Python `dt.strftime("%Y%m%d %H:%M:%S")`. -/
def strftimeIB (dt : DateTime) : String :=
  padZeros 4 dt.year ++ padZeros 2 dt.month ++ padZeros 2 dt.day ++ " " ++
  padZeros 2 dt.hour ++ ":" ++ padZeros 2 dt.minute ++ ":" ++ padZeros 2 dt.second

/-- Digit value of a character, if it is a decimal digit. -/
def dval (c : Char) : Option Nat :=
  if '0' ≤ c ∧ c ≤ '9' then some (c.toNat - 48) else none

/-- One or two decimal digits, two when available, as `strptime`'s numeric
directives consume them before a non-digit separator. -/
def digits2 : List Char → Option (Nat × List Char)
  | [] => none
  | [c] => match dval c with
    | some a => some (a, [])
    | none => none
  | c1 :: c2 :: rest =>
    match dval c1, dval c2 with
    | some a, some b => some (10 * a + b, rest)
    | some a, none => some (a, c2 :: rest)
    | none, _ => none

/-- Exactly four decimal digits, as `strptime`'s `%Y` requires. -/
def digits4 : List Char → Option (Nat × List Char)
  | c1 :: c2 :: c3 :: c4 :: rest =>
    match dval c1, dval c2, dval c3, dval c4 with
    | some a, some b, some c, some d => some (1000 * a + 100 * b + 10 * c + d, rest)
    | _, _, _, _ => none
  | _ => none

/-- Consume one expected literal character. -/
def expectChar (ch : Char) : List Char → Option (List Char)
  | c :: rest => if c = ch then some rest else none
  | [] => none

/-- The `%Y-%m-%d` prefix common to all three accepted formats. -/
def parseYMDPart (cs : List Char) : Option (Nat × Nat × Nat × List Char) :=
  match digits4 cs with
  | none => none
  | some (y, r1) =>
    match expectChar '-' r1 with
    | none => none
    | some r2 =>
      match digits2 r2 with
      | none => none
      | some (m, r3) =>
        match expectChar '-' r3 with
        | none => none
        | some r4 =>
          match digits2 r4 with
          | none => none
          | some (d, r5) => some (y, m, d, r5)

/-- The range validation Python's `datetime` constructor performs after a
format matches. -/
def mkDateTimeChecked (y m d h mi s : Nat) : Option DateTime :=
  if 1 ≤ y ∧ 1 ≤ m ∧ m ≤ 12 ∧ 1 ≤ d ∧ d ≤ daysInMonth y m ∧ h ≤ 23 ∧ mi ≤ 59 ∧ s ≤ 59
  then some ⟨y, m, d, h, mi, s⟩ else none

/-- `strptime` with format `%Y-%m-%d %H:%M:%S`. -/
def parseFmtSeconds (cs : List Char) : Option DateTime :=
  match parseYMDPart cs with
  | none => none
  | some (y, m, d, r) =>
    match expectChar ' ' r with
    | none => none
    | some r1 =>
      match digits2 r1 with
      | none => none
      | some (h, r2) =>
        match expectChar ':' r2 with
        | none => none
        | some r3 =>
          match digits2 r3 with
          | none => none
          | some (mi, r4) =>
            match expectChar ':' r4 with
            | none => none
            | some r5 =>
              match digits2 r5 with
              | none => none
              | some (s, r6) => if r6 = [] then mkDateTimeChecked y m d h mi s else none

/-- `strptime` with format `%Y-%m-%d %H:%M`. -/
def parseFmtMinutes (cs : List Char) : Option DateTime :=
  match parseYMDPart cs with
  | none => none
  | some (y, m, d, r) =>
    match expectChar ' ' r with
    | none => none
    | some r1 =>
      match digits2 r1 with
      | none => none
      | some (h, r2) =>
        match expectChar ':' r2 with
        | none => none
        | some r3 =>
          match digits2 r3 with
          | none => none
          | some (mi, r4) => if r4 = [] then mkDateTimeChecked y m d h mi 0 else none

/-- `strptime` with format `%Y-%m-%d`. -/
def parseFmtDate (cs : List Char) : Option DateTime :=
  match parseYMDPart cs with
  | none => none
  | some (y, m, d, r) => if r = [] then mkDateTimeChecked y m d 0 0 0 else none

/-- `parse_date_string` from the source: the three formats are tried in
order; a string matching none of them is a format error (`none`). -/
def parse_date_string (str : String) : Option DateTime :=
  match parseFmtSeconds str.data with
  | some dt => some dt
  | none =>
    match parseFmtMinutes str.data with
    | some dt => some dt
    | none => parseFmtDate str.data

/-- The two `ValueError`s `process_date_arguments` can raise. -/
inductive DateError
  | invalidFormat
  | invalidRange
deriving DecidableEq, Repr

/-- The four resolution cases of `process_date_arguments`. -/
inductive Mode
  | dateRange
  | singleDay
  | durationWithEnd
  | durationOnly
deriving DecidableEq, Repr

/-- The triple `process_date_arguments` returns (the info dict is reduced to
its `mode` tag, the only field downstream logic reads). -/
structure Resolved where
  endDateTimeStr : String
  durationStr : String
  mode : Mode
deriving DecidableEq, Repr

/-- `parse_date_string(x) if x else None`: absent or empty arguments resolve
to no date, anything else must parse. -/
def parseOptArg : Option String → Except DateError (Option DateTime)
  | none => .ok none
  | some s =>
    if s = "" then .ok none
    else
      match parse_date_string s with
      | some dt => .ok (some dt)
      | none => .error .invalidFormat

/-- `format_ibkr_datetime` from the source. -/
def format_ibkr_datetime (include_extended_hours : Bool) (dt : DateTime)
    (has_time_component : Bool) : String :=
  if has_time_component then strftimeIB dt
  else if include_extended_hours then strftimeIB (setTime (addOneDay dt) 2 0 0)
  else strftimeIB (setTime dt 16 0 0)

/-- The duration string computed in the both-dates case of the source. -/
def durationStrOfDays (days : Int) : String :=
  if days = 1 then "1 D"
  else if days ≤ 365 then intStr days ++ " D"
  else intStr (Int.fdiv days 365) ++ " Y"

/-- Core of `process_date_arguments` after both arguments are parsed. -/
def resolveParsed (sd ed : Option DateTime) (defaultDuration : String) (eth : Bool)
    (now : DateTime) : Except DateError Resolved :=
  match sd, ed with
  | some s, some e =>
    if dtGtB s e then .error .invalidRange
    else
      let days : Int := Int.fdiv ((dtSecs e : Int) - (dtSecs s : Int)) 86400 + 1
      .ok ⟨format_ibkr_datetime eth e (hasTimeB e), durationStrOfDays days, .dateRange⟩
  | some s, none =>
    if hasTimeB s = false ∧ eth = false then
      .ok ⟨format_ibkr_datetime eth (setTime s 16 0 0) true, "1 D", .singleDay⟩
    else
      .ok ⟨format_ibkr_datetime eth s (hasTimeB s), "1 D", .singleDay⟩
  | none, some e =>
    .ok ⟨format_ibkr_datetime eth e (hasTimeB e), defaultDuration, .durationWithEnd⟩
  | none, none =>
    .ok ⟨format_ibkr_datetime eth now false, defaultDuration, .durationOnly⟩

/-- `process_date_arguments` from the source.  `now` stands for
`datetime.now()`, reaching the result only in the neither-date case. -/
def process_date_arguments (startStr endStr : Option String) (defaultDuration : String)
    (eth : Bool) (now : DateTime) : Except DateError Resolved :=
  match parseOptArg startStr with
  | .error e => .error e
  | .ok sd =>
    match parseOptArg endStr with
    | .error e => .error e
    | .ok ed => resolveParsed sd ed defaultDuration eth now

/-- Modelled from the spec wording of C1: the number of calendar days a pair
of datetimes spans, inclusive of both end dates. -/
def spec_inclusiveCalendarDays (s e : DateTime) : Int :=
  (toOrdinal e : Int) - (toOrdinal s : Int) + 1

/-- Python `str.upper` (ASCII, as the source's symbols are). -/
def strUpper (s : String) : String := ⟨s.data.map Char.toUpper⟩

/-- Output timezones the source can return; `localZone` stands for the
system zone pytz computes, opaque to this embedding. -/
inductive Zone
  | utc
  | eastern
  | localZone
deriving DecidableEq, Repr

/-- `get_target_timezone` from the source. -/
def get_target_timezone (timezone_choice symbol : String) : Zone :=
  if timezone_choice = "UTC" then .utc
  else if timezone_choice = "local" then .localZone
  else if timezone_choice = "market" then
    if strUpper symbol ∈ ["SPY", "QQQ", "IWM"] ∨ (strUpper symbol).length ≤ 5 then .eastern
    else .eastern
  else .utc

/-- Python `str.replace`, all non-overlapping occurrences left to right.
Structured on `fuel`; `fuel = length of the subject` is always sufficient
because every step consumes at least one character. -/
def replaceGo (pat rep : List Char) : Nat → List Char → List Char
  | _, [] => []
  | 0, s => s
  | fuel + 1, c :: rest =>
    if pat.isPrefixOf (c :: rest) then rep ++ replaceGo pat rep fuel (List.drop (pat.length - 1) rest)
    else c :: replaceGo pat rep fuel rest

/-- Python `s.replace(pat, rep)`. -/
def strReplace (s pat rep : String) : String :=
  ⟨replaceGo pat.data rep.data s.data.length s.data⟩

/-- Python `"_".join(parts)`. -/
def joinUnderscore : List String → String
  | [] => ""
  | [p] => p
  | p :: q :: rest => p ++ "_" ++ joinUnderscore (q :: rest)

/-- Python truthiness of an optional string (`None` and `""` are falsy). -/
def optTruthy : Option String → Bool
  | none => false
  | some s => !(s == "")

/-- `generate_filename` from the source. -/
def generate_filename (symbol security_type duration timeframe : String)
    (future_contract_month : Option String) (include_extended_hours : Bool) : String :=
  let tfc0 := strReplace timeframe " " ""
  let tfc1 := strReplace tfc0 "secs" "s"
  let tfc2 := strReplace tfc1 "mins" "m"
  let tfc3 := strReplace tfc2 "min" "m"
  let tfc4 := strReplace tfc3 "hour" "h"
  let tfc5 := strReplace tfc4 "day" "d"
  let tfc6 := strReplace tfc5 "week" "w"
  let tfc := strReplace tfc6 "month" "M"
  let duration_clean := strReplace duration " " ""
  let parts0 := [strUpper symbol, security_type]
  let parts1 :=
    if security_type == "FUT" && optTruthy future_contract_month
    then parts0 ++ [future_contract_month.getD ""] else parts0
  let parts2 := parts1 ++ [duration_clean, tfc]
  let parts3 := if include_extended_hours then parts2 ++ ["ETH"] else parts2
  let parts4 := parts3 ++ ["OHLCV"]
  joinUnderscore parts4 ++ ".csv"

/-- `os.path.splitext`: split at the final dot, unless every character before
that dot is itself a dot. -/
def splitext (s : String) : String × String :=
  let ds := s.data
  match ds.reverse.findIdx? (· = '.') with
  | none => (s, "")
  | some k =>
    let i := ds.length - 1 - k
    if (ds.take i).any (· ≠ '.') then (⟨ds.take i⟩, ⟨ds.drop i⟩) else (s, "")

/-- The counter-suffixed candidate `f"{name}_{timestamp}_{counter:02d}{ext}"`
built inside `generate_unique_filename`'s while loop. -/
def ctrCand (name ts ext : String) (c : Nat) : String :=
  name ++ "_" ++ ts ++ "_" ++ padZeros 2 c ++ ext

/-- The while loop of `generate_unique_filename`: try counters `c0, c0+1, …`
until a candidate is not among the existing paths.  Structured on `fuel`;
`existing.length + 1` tries always suffice because candidates for distinct
counters are distinct strings. -/
def findFree (name ts ext : String) (existing : List String) : Nat → Nat → String
  | 0, c => ctrCand name ts ext c
  | fuel + 1, c =>
    if ctrCand name ts ext c ∈ existing then findFree name ts ext existing fuel (c + 1)
    else ctrCand name ts ext c

/-- `generate_unique_filename` from the source.  The filesystem is the
`existing` path list; `ts` is the `datetime.now().strftime("%Y%m%d_%H%M%S")`
timestamp the source computes from the clock. -/
def generate_unique_filename (existing : List String) (base_filename ts : String) : String :=
  if base_filename ∈ existing then
    let ne := splitext base_filename
    let uniq := ne.1 ++ "_" ++ ts ++ ne.2
    if uniq ∈ existing then findFree ne.1 ts ne.2 existing (existing.length + 1) 1
    else uniq
  else base_filename

/-- The first valid answer the user gives at the conflict prompt (the
source's input loop discards invalid entries). -/
inductive Choice
  | overwrite
  | rename
  | cancel
deriving DecidableEq, Repr

/-- `handle_file_conflict` from the source. -/
def handle_file_conflict (existing : List String) (filename : String) (overwrite_flag : Bool)
    (choice : Choice) (ts : String) : String × Bool :=
  if filename ∈ existing then
    if overwrite_flag then (filename, true)
    else
      match choice with
      | .overwrite => (filename, true)
      | .rename => (generate_unique_filename existing filename ts, true)
      | .cancel => (filename, false)
  else (filename, true)

/-- Observable steps of one `fetch_and_save_historical_data` run, in order. -/
inductive Event
  | errorExit (e : DateError)
  | connectAttempt
  | connectFailed
  | qualifyFailed
  | request
  | noData
  | warnUnparseable
  | cancelMsg
  | write (path : String) (rows : List String)
  | savedMsg (path : String)
  | disconnect
deriving DecidableEq, Repr

/-- The external world one run observes: IB connection and contract
qualification outcomes, the returned bar timestamps (the string-typed date
column case), pandas timestamp parsing, timezone formatting, the filesystem,
the prompt answer, the rename timestamp and the clock. -/
structure Env where
  connectOk : Bool
  qualifyOk : Bool
  bars : List String
  pdParse : String → Option DateTime
  fmtRow : DateTime → String
  existing : List String
  choice : Choice
  ts : String
  now : DateTime

/-- `pd.to_datetime` over the whole column: fails if any row fails. -/
def parseAllRows (p : String → Option DateTime) : List String → Option (List DateTime)
  | [] => some []
  | s :: rest =>
    match p s with
    | none => none
    | some dt => (parseAllRows p rest).map (dt :: ·)

/-- The date-column conversion step of the source (lines 682-690): convert
every row when the whole column parses; otherwise warn once and leave the
column as it was. -/
def convertDateColumn (p : String → Option DateTime) (fmt : DateTime → String)
    (col : List String) : List String × Bool :=
  match parseAllRows p col with
  | some ts => (ts.map fmt, false)
  | none => (col, true)

/-- The output filename `fetch_and_save_historical_data` uses: the `-o`
argument when given, otherwise the auto-generated name (the global security
type is `"STK"` and the futures month is unset for it). -/
def fetchOutName (symbol timeframe : String) (r : Resolved) (outOpt : Option String)
    (eth : Bool) : String :=
  match outOpt with
  | some f => f
  | none => generate_filename symbol "STK" r.durationStr timeframe none eth

/-- Control flow of `fetch_and_save_historical_data`, reduced to the events
the claims observe.  Prints that carry no decision are omitted; the `finally`
block's disconnect appears wherever a connection was established. -/
def fetch_and_save (symbol timeframe defaultDuration : String) (outOpt : Option String)
    (overwrite : Bool) (startDate endDate : Option String) (eth : Bool) (env : Env) :
    List Event :=
  match process_date_arguments startDate endDate defaultDuration eth env.now with
  | .error e => [.errorExit e]
  | .ok r =>
    let fname := fetchOutName symbol timeframe r outOpt eth
    if env.connectOk = false then [.connectAttempt, .connectFailed]
    else if env.qualifyOk = false then [.connectAttempt, .qualifyFailed, .disconnect]
    else if env.bars.isEmpty then [.connectAttempt, .request, .noData, .disconnect]
    else
      let conv := convertDateColumn env.pdParse env.fmtRow env.bars
      let resolved := handle_file_conflict env.existing fname overwrite env.choice env.ts
      let pre := [.connectAttempt, .request] ++ (if conv.2 then [.warnUnparseable] else [])
      if resolved.2 then pre ++ [.write resolved.1 conv.1, .savedMsg resolved.1, .disconnect]
      else pre ++ [.cancelMsg, .disconnect]

/-- A fixed clock value used by concrete instantiations. -/
def now0 : DateTime := ⟨2025, 1, 1, 12, 30, 0⟩

/-- A concrete environment used by concrete instantiations. -/
def envW : Env :=
  { connectOk := true, qualifyOk := true, bars := ["b"], pdParse := fun _ => none,
    fmtRow := fun _ => "", existing := [], choice := Choice.cancel,
    ts := "20250101_120000", now := now0 }

/-- A concrete environment whose filesystem already holds the output file. -/
def envC8 : Env := { envW with existing := ["out.csv"] }

theorem str_data_append (a b : String) : (a ++ b).data = a.data ++ b.data := rfl

theorem digitChar_val {d : Nat} (h : d < 10) : (digitChar d).toNat - 48 = d := by
  interval_cases d <;> decide

theorem decodeFrom_snoc (a : Nat) (xs : List Char) (c : Char) :
    decodeFrom a (xs ++ [c]) = 10 * decodeFrom a xs + (c.toNat - 48) := by
  simp [decodeFrom, List.foldl_append]

theorem decodeFrom_decStrGo : ∀ (fuel n a : Nat), n ≤ fuel →
    decodeFrom a (decStrGo fuel n) = a * 10 ^ (decStrGo fuel n).length + n := by
  intro fuel
  induction fuel with
  | zero =>
    intro n a h
    have hn : n = 0 := by omega
    subst hn
    simp [decStrGo, decodeFrom, digitChar]
    ring
  | succ fuel ih =>
    intro n a h
    by_cases hn : n < 10
    · simp only [decStrGo, if_pos hn]
      have hd := digitChar_val hn
      simp [decodeFrom, hd]
      ring
    · simp only [decStrGo, if_neg hn]
      have hdiv : n / 10 ≤ fuel := by omega
      rw [decodeFrom_snoc, ih (n / 10) a hdiv]
      have hd : (digitChar (n % 10)).toNat - 48 = n % 10 := digitChar_val (by omega)
      rw [hd]
      rw [List.length_append, List.length_singleton, pow_succ]
      have := Nat.div_add_mod n 10
      ring_nf
      omega

theorem decodeFrom_decChars (n : Nat) : decodeFrom 0 (decChars n) = n := by
  have := decodeFrom_decStrGo n n 0 (le_refl n)
  simpa [decChars] using this

theorem decodeFrom_replicate_zero (a k : Nat) :
    decodeFrom a (List.replicate k '0') = a * 10 ^ k := by
  induction k generalizing a with
  | zero => simp [decodeFrom]
  | succ k ih =>
    rw [List.replicate_succ]
    have : decodeFrom a ('0' :: List.replicate k '0') = decodeFrom (10 * a) (List.replicate k '0') := by
      simp [decodeFrom]
    rw [this, ih]
    ring

theorem decodeFrom_append (a : Nat) (l1 l2 : List Char) :
    decodeFrom a (l1 ++ l2) = decodeFrom (decodeFrom a l1) l2 := by
  simp [decodeFrom, List.foldl_append]

theorem decode_padZeros (w n : Nat) : decodeFrom 0 (padZeros w n).data = n := by
  show decodeFrom 0 (List.replicate (w - (decChars n).length) '0' ++ decChars n) = n
  rw [decodeFrom_append, decodeFrom_replicate_zero, zero_mul, decodeFrom_decChars]

theorem padZeros_inj {w a b : Nat} (h : padZeros w a = padZeros w b) : a = b := by
  have := congrArg (fun s => decodeFrom 0 s.data) h
  simpa [decode_padZeros] using this

theorem decChars_ne_nil (n : Nat) : decChars n ≠ [] := by
  unfold decChars
  cases n with
  | zero => simp [decStrGo]
  | succ k =>
    show decStrGo (k + 1) (k + 1) ≠ []
    simp only [decStrGo]
    split <;> simp

theorem padZeros_data_ne_nil (w n : Nat) : (padZeros w n).data ≠ [] := by
  show List.replicate (w - (decChars n).length) '0' ++ decChars n ≠ []
  simp [decChars_ne_nil n]

theorem strftimeIB_ne_empty (dt : DateTime) : strftimeIB dt ≠ "" := by
  intro h
  have hd := congrArg String.data h
  rw [strftimeIB] at hd
  simp only [str_data_append] at hd
  rcases hne : (padZeros 4 dt.year).data with _ | ⟨c, cs⟩
  · exact padZeros_data_ne_nil 4 dt.year hne
  · rw [hne] at hd
    simp at hd

theorem format_ibkr_ne_empty (eth : Bool) (dt : DateTime) (ht : Bool) :
    format_ibkr_datetime eth dt ht ≠ "" := by
  unfold format_ibkr_datetime
  split
  · exact strftimeIB_ne_empty dt
  · split
    · exact strftimeIB_ne_empty _
    · exact strftimeIB_ne_empty _

theorem parse_empty_none : parse_date_string "" = none := rfl


theorem parseOptArg_of_parse {s : String} {dt : DateTime}
    (h : parse_date_string s = some dt) : parseOptArg (some s) = .ok (some dt) := by
  have hs : s ≠ "" := by
    intro he
    rw [he, parse_empty_none] at h
    cases h
  simp only [parseOptArg]
  rw [if_neg hs, h]

theorem endstr_of_end_anchor {sd : Option DateTime} {de : DateTime} {dflt : String}
    {eth : Bool} {now : DateTime} {r : Resolved}
    (h : resolveParsed sd (some de) dflt eth now = .ok r) :
    r.endDateTimeStr = format_ibkr_datetime eth de (hasTimeB de) := by
  cases sd with
  | none =>
    simp only [resolveParsed] at h
    cases h
    rfl
  | some s =>
    simp only [resolveParsed] at h
    by_cases hg : dtGtB s de = true
    · rw [if_pos hg] at h
      cases h
    · rw [if_neg hg] at h
      cases h
      rfl

theorem endstr_singleDay {s : DateTime} {dflt : String} {eth : Bool} {now : DateTime}
    {r : Resolved} (h : resolveParsed (some s) none dflt eth now = .ok r) :
    r.endDateTimeStr =
      (if hasTimeB s then strftimeIB s
       else if eth then strftimeIB (setTime (addOneDay s) 2 0 0)
       else strftimeIB (setTime s 16 0 0)) := by
  simp only [resolveParsed] at h
  by_cases hc : hasTimeB s = false ∧ eth = false
  · rw [if_pos hc] at h
    cases h
    rw [hc.1, hc.2]
    rfl
  · rw [if_neg hc] at h
    cases h
    show format_ibkr_datetime eth s (hasTimeB s) = _
    cases ht : hasTimeB s with
    | true => rfl
    | false =>
      cases he : eth with
      | true => rfl
      | false => exact absurd ⟨ht, he⟩ hc

theorem process_eq_resolveParsed {a b : Option String} {sd ed : Option DateTime}
    (ha : parseOptArg a = .ok sd) (hb : parseOptArg b = .ok ed)
    (dflt : String) (eth : Bool) (now : DateTime) :
    process_date_arguments a b dflt eth now = resolveParsed sd ed dflt eth now := by
  unfold process_date_arguments
  rw [ha, hb]

theorem process_ok_end_anchor {a b : Option String} {de : DateTime} {dflt : String}
    {eth : Bool} {now : DateTime} {r : Resolved}
    (hb : parseOptArg b = .ok (some de))
    (h : process_date_arguments a b dflt eth now = .ok r) :
    r.endDateTimeStr = format_ibkr_datetime eth de (hasTimeB de) := by
  unfold process_date_arguments at h
  cases ha : parseOptArg a with
  | error e => rw [ha] at h; cases h
  | ok sd =>
    rw [ha, hb] at h
    exact endstr_of_end_anchor h

theorem process_ok_dateRange {ss es : String} {ds de : DateTime} {dflt : String}
    {eth : Bool} {now : DateTime} {r : Resolved}
    (hs : parse_date_string ss = some ds) (he : parse_date_string es = some de)
    (h : process_date_arguments (some ss) (some es) dflt eth now = .ok r) :
    dtGtB ds de = false ∧
    r = ⟨format_ibkr_datetime eth de (hasTimeB de),
         durationStrOfDays (Int.fdiv ((dtSecs de : Int) - (dtSecs ds : Int)) 86400 + 1),
         .dateRange⟩ := by
  rw [process_eq_resolveParsed (parseOptArg_of_parse hs) (parseOptArg_of_parse he)] at h
  simp only [resolveParsed] at h
  by_cases hg : dtGtB ds de = true
  · rw [if_pos hg] at h
    cases h
  · rw [if_neg hg] at h
    cases h
    exact ⟨Bool.not_eq_true _ ▸ hg, rfl⟩

theorem days_of_midnight {ds de : DateTime} (h1 : hasTimeB ds = false)
    (h2 : hasTimeB de = false) :
    Int.fdiv ((dtSecs de : Int) - (dtSecs ds : Int)) 86400 + 1 =
      spec_inclusiveCalendarDays ds de := by
  simp only [hasTimeB, Bool.not_eq_false', Bool.and_eq_true, beq_iff_eq] at h1 h2
  obtain ⟨⟨hh1, hm1⟩, hs1⟩ := h1
  obtain ⟨⟨hh2, hm2⟩, hs2⟩ := h2
  unfold dtSecs spec_inclusiveCalendarDays
  rw [hh1, hm1, hs1, hh2, hm2, hs2]
  have hmul : ((toOrdinal de * 86400 + 0 * 3600 + 0 * 60 + 0 : Nat) : Int) -
      ((toOrdinal ds * 86400 + 0 * 3600 + 0 * 60 + 0 : Nat) : Int) =
      ((toOrdinal de : Int) - (toOrdinal ds : Int)) * 86400 := by
    push_cast
    ring
  rw [hmul, Int.mul_fdiv_cancel _ (by norm_num)]

theorem durationStrOfDays_le {N : Int} (h : N ≤ 365) :
    durationStrOfDays N = intStr N ++ " D" := by
  by_cases h1 : N = 1
  · subst h1
    rfl
  · unfold durationStrOfDays
    rw [if_neg h1, if_pos h]

theorem durationStrOfDays_gt {N : Int} (h : 365 < N) :
    durationStrOfDays N = intStr (Int.fdiv N 365) ++ " Y" := by
  unfold durationStrOfDays
  rw [if_neg (by omega), if_neg (by omega)]

theorem endstr_durationOnly {dflt : String} {eth : Bool} {now : DateTime} {r : Resolved}
    (h : process_date_arguments none none dflt eth now = .ok r) :
    r.endDateTimeStr = format_ibkr_datetime eth now false := by
  cases h
  rfl

/-- C1, counterexample: the date strings `2024-01-15 23:00:00` and
`2024-01-16 01:00:00` both parse, start is not after end, and they span 2
inclusive calendar days, yet the resolver returns durationString `"1 D"`,
not `"2 D"`: the source counts floored elapsed 24-hour periods plus one,
not inclusive calendar days, when the inputs carry times of day. -/
theorem c1_calendar_days_counterexample :
    parse_date_string "2024-01-15 23:00:00" = some ⟨2024, 1, 15, 23, 0, 0⟩ ∧
    parse_date_string "2024-01-16 01:00:00" = some ⟨2024, 1, 16, 1, 0, 0⟩ ∧
    dtGtB ⟨2024, 1, 15, 23, 0, 0⟩ ⟨2024, 1, 16, 1, 0, 0⟩ = false ∧
    spec_inclusiveCalendarDays ⟨2024, 1, 15, 23, 0, 0⟩ ⟨2024, 1, 16, 1, 0, 0⟩ = 2 ∧
    process_date_arguments (some "2024-01-15 23:00:00") (some "2024-01-16 01:00:00")
        "1 Y" false now0 = .ok ⟨"20240116 01:00:00", "1 D", .dateRange⟩ ∧
    intStr 2 ++ " D" = "2 D" ∧
    ("1 D" : String) ≠ "2 D" :=
  ⟨rfl, rfl, rfl, by decide, rfl, rfl, by decide⟩

/-- C1 (amended): for date strings whose parsed values are midnight-anchored
(in particular all date-only strings), a successful resolution of a
start/end pair yields durationString `"<N> D"` for N ≤ 365 and
`"<floor(N/365)> Y"` otherwise, where N is the inclusive calendar-day span;
and the concrete example start=2024-01-15, end=2024-01-31 with Regular
session yields `"17 D"` and end timestamp `"20240131 16:00:00"`. -/
theorem c1_duration_of_calendar_days :
    (∀ (ss es dflt : String) (eth : Bool) (now : DateTime) (ds de : DateTime) (r : Resolved),
      parse_date_string ss = some ds → parse_date_string es = some de →
      hasTimeB ds = false → hasTimeB de = false →
      process_date_arguments (some ss) (some es) dflt eth now = .ok r →
      (spec_inclusiveCalendarDays ds de ≤ 365 →
        r.durationStr = intStr (spec_inclusiveCalendarDays ds de) ++ " D") ∧
      (365 < spec_inclusiveCalendarDays ds de →
        r.durationStr = intStr (Int.fdiv (spec_inclusiveCalendarDays ds de) 365) ++ " Y")) ∧
    process_date_arguments (some "2024-01-15") (some "2024-01-31") "1 Y" false now0 =
      .ok ⟨"20240131 16:00:00", "17 D", .dateRange⟩ := by
  refine ⟨?_, rfl⟩
  intro ss es dflt eth now ds de r hs he hts hte h
  obtain ⟨-, hr⟩ := process_ok_dateRange hs he h
  have hd : r.durationStr =
      durationStrOfDays (Int.fdiv ((dtSecs de : Int) - (dtSecs ds : Int)) 86400 + 1) := by
    rw [hr]
  rw [days_of_midnight hts hte] at hd
  constructor
  · intro hle
    rw [hd, durationStrOfDays_le hle]
  · intro hgt
    rw [hd, durationStrOfDays_gt hgt]

/-- C1 witness: the amended theorem applied to the concrete pair
2024-01-15 / 2024-01-31, spanning 17 inclusive days. -/
theorem c1_duration_witness :
    (⟨"20240131 16:00:00", "17 D", Mode.dateRange⟩ : Resolved).durationStr =
      intStr (spec_inclusiveCalendarDays ⟨2024, 1, 15, 0, 0, 0⟩ ⟨2024, 1, 31, 0, 0, 0⟩) ++ " D" :=
  (c1_duration_of_calendar_days.1 "2024-01-15" "2024-01-31" "1 Y" false now0
    ⟨2024, 1, 15, 0, 0, 0⟩ ⟨2024, 1, 31, 0, 0, 0⟩
    ⟨"20240131 16:00:00", "17 D", Mode.dateRange⟩ rfl rfl rfl rfl rfl).1 (by decide)

/-- C2, counterexample: the end string `2024-01-31 00:00:00` carries an
explicit (midnight) time of day, but the resolver does not use it verbatim:
it returns `"20240131 16:00:00"` instead of `"20240131 00:00:00"`. -/
theorem c2_verbatim_counterexample :
    parse_date_string "2024-01-31 00:00:00" = some ⟨2024, 1, 31, 0, 0, 0⟩ ∧
    process_date_arguments (some "2024-01-15") (some "2024-01-31 00:00:00") "1 Y" false now0 =
      .ok ⟨"20240131 16:00:00", "17 D", .dateRange⟩ ∧
    strftimeIB ⟨2024, 1, 31, 0, 0, 0⟩ = "20240131 00:00:00" ∧
    ("20240131 16:00:00" : String) ≠ "20240131 00:00:00" :=
  ⟨rfl, rfl, rfl, by decide⟩

/-- C2 (amended): whenever the anchor's parsed time of day is midnight —
because no time was given or an explicit 00:00[:00] was — the end timestamp
is derived as 02:00:00 on the following day (Extended) or 16:00:00 on the
same day (Regular); an explicit non-midnight time is used verbatim.  This
holds in every resolution case; in DurationOnly the anchor is the current
moment, whose time of day is always discarded in favour of the derivation. -/
theorem c2_session_close_derivation :
    (∀ (ss es dflt : String) (eth : Bool) (now : DateTime) (de : DateTime) (r : Resolved),
      parse_date_string es = some de →
      process_date_arguments (some ss) (some es) dflt eth now = .ok r →
      r.endDateTimeStr =
        (if hasTimeB de then strftimeIB de
         else if eth then strftimeIB (setTime (addOneDay de) 2 0 0)
         else strftimeIB (setTime de 16 0 0))) ∧
    (∀ (es dflt : String) (eth : Bool) (now : DateTime) (de : DateTime) (r : Resolved),
      parse_date_string es = some de →
      process_date_arguments none (some es) dflt eth now = .ok r →
      r.endDateTimeStr =
        (if hasTimeB de then strftimeIB de
         else if eth then strftimeIB (setTime (addOneDay de) 2 0 0)
         else strftimeIB (setTime de 16 0 0))) ∧
    (∀ (ss dflt : String) (eth : Bool) (now : DateTime) (ds : DateTime) (r : Resolved),
      parse_date_string ss = some ds →
      process_date_arguments (some ss) none dflt eth now = .ok r →
      r.endDateTimeStr =
        (if hasTimeB ds then strftimeIB ds
         else if eth then strftimeIB (setTime (addOneDay ds) 2 0 0)
         else strftimeIB (setTime ds 16 0 0))) ∧
    (∀ (dflt : String) (eth : Bool) (now : DateTime) (r : Resolved),
      process_date_arguments none none dflt eth now = .ok r →
      r.endDateTimeStr =
        (if eth then strftimeIB (setTime (addOneDay now) 2 0 0)
         else strftimeIB (setTime now 16 0 0))) := by
  refine ⟨?_, ?_, ?_, ?_⟩
  · intro ss es dflt eth now de r he h
    exact process_ok_end_anchor (parseOptArg_of_parse he) h
  · intro es dflt eth now de r he h
    exact process_ok_end_anchor (parseOptArg_of_parse he) h
  · intro ss dflt eth now ds r hs h
    rw [process_eq_resolveParsed (parseOptArg_of_parse hs)
      (rfl : parseOptArg none = .ok none)] at h
    exact endstr_singleDay h
  · intro dflt eth now r h
    rw [endstr_durationOnly h]
    rfl

/-- C2 witness: the derivation rule applied to the Regular-session,
date-only end 2024-01-31. -/
theorem c2_session_close_witness :
    (⟨"20240131 16:00:00", "17 D", Mode.dateRange⟩ : Resolved).endDateTimeStr =
      (if hasTimeB ⟨2024, 1, 31, 0, 0, 0⟩ then strftimeIB ⟨2024, 1, 31, 0, 0, 0⟩
       else if false then strftimeIB (setTime (addOneDay ⟨2024, 1, 31, 0, 0, 0⟩) 2 0 0)
       else strftimeIB (setTime ⟨2024, 1, 31, 0, 0, 0⟩ 16 0 0)) :=
  c2_session_close_derivation.1 "2024-01-15" "2024-01-31" "1 Y" false now0
    ⟨2024, 1, 31, 0, 0, 0⟩ ⟨"20240131 16:00:00", "17 D", Mode.dateRange⟩ rfl rfl

/-- C3: when both dates parse but start is strictly after end, the resolver
fails with the invalid-range error, the run reports it and aborts, and the
event trace contains no connection attempt and no data request. -/
theorem c3_invalid_range_aborts :
    ∀ (ss es : String) (ds de : DateTime) (dflt : String) (eth : Bool)
      (symbol timeframe : String) (outOpt : Option String) (ow : Bool) (env : Env),
      parse_date_string ss = some ds → parse_date_string es = some de →
      dtGtB ds de = true →
      process_date_arguments (some ss) (some es) dflt eth env.now = .error .invalidRange ∧
      fetch_and_save symbol timeframe dflt outOpt ow (some ss) (some es) eth env =
        [.errorExit .invalidRange] ∧
      Event.connectAttempt ∉
        fetch_and_save symbol timeframe dflt outOpt ow (some ss) (some es) eth env ∧
      Event.request ∉
        fetch_and_save symbol timeframe dflt outOpt ow (some ss) (some es) eth env := by
  intro ss es ds de dflt eth symbol timeframe outOpt ow env hs he hg
  have hp : process_date_arguments (some ss) (some es) dflt eth env.now =
      .error .invalidRange := by
    rw [process_eq_resolveParsed (parseOptArg_of_parse hs) (parseOptArg_of_parse he)]
    simp only [resolveParsed]
    rw [if_pos hg]
  have htr : fetch_and_save symbol timeframe dflt outOpt ow (some ss) (some es) eth env =
      [.errorExit .invalidRange] := by
    unfold fetch_and_save
    rw [hp]
  refine ⟨hp, htr, ?_, ?_⟩ <;> rw [htr] <;> simp

/-- C3 witness: start 2024-02-01 after end 2024-01-01 yields exactly the
error-exit trace. -/
theorem c3_invalid_range_witness :
    fetch_and_save "SPY" "1 day" "1 Y" none false (some "2024-02-01") (some "2024-01-01")
      false envW = [.errorExit .invalidRange] :=
  (c3_invalid_range_aborts "2024-02-01" "2024-01-01" ⟨2024, 2, 1, 0, 0, 0⟩
    ⟨2024, 1, 1, 0, 0, 0⟩ "1 Y" false "SPY" "1 day" none false envW rfl rfl rfl).2.1

/-- C4: every successful resolution carries a non-empty end timestamp; in
the neither-date case the resolver succeeds outright and supplies the
explicit timestamp formatted from the current moment, never the empty
string. -/
theorem c4_endTimestamp_nonempty :
    (∀ (ss es : Option String) (dflt : String) (eth : Bool) (now : DateTime) (r : Resolved),
      process_date_arguments ss es dflt eth now = .ok r → r.endDateTimeStr ≠ "") ∧
    (∀ (dflt : String) (eth : Bool) (now : DateTime),
      process_date_arguments none none dflt eth now =
        .ok ⟨format_ibkr_datetime eth now false, dflt, .durationOnly⟩ ∧
      format_ibkr_datetime eth now false ≠ "") := by
  constructor
  · intro ss es dflt eth now r h
    unfold process_date_arguments at h
    cases ha : parseOptArg ss with
    | error e => rw [ha] at h; cases h
    | ok sd =>
      rw [ha] at h
      cases hb : parseOptArg es with
      | error e => rw [hb] at h; cases h
      | ok ed =>
        rw [hb] at h
        cases sd with
        | some s =>
          cases ed with
          | some e =>
            simp only [resolveParsed] at h
            by_cases hg : dtGtB s e = true
            · rw [if_pos hg] at h
              cases h
            · rw [if_neg hg] at h
              cases h
              exact format_ibkr_ne_empty eth e (hasTimeB e)
          | none =>
            simp only [resolveParsed] at h
            by_cases hc : hasTimeB s = false ∧ eth = false
            · rw [if_pos hc] at h
              cases h
              exact format_ibkr_ne_empty eth (setTime s 16 0 0) true
            · rw [if_neg hc] at h
              cases h
              exact format_ibkr_ne_empty eth s (hasTimeB s)
        | none =>
          cases ed with
          | some e =>
            simp only [resolveParsed] at h
            cases h
            exact format_ibkr_ne_empty eth e (hasTimeB e)
          | none =>
            simp only [resolveParsed] at h
            cases h
            exact format_ibkr_ne_empty eth now false
  · intro dflt eth now
    exact ⟨rfl, format_ibkr_ne_empty eth now false⟩

/-- C4 witness: the DurationOnly resolution at the fixed clock with the
Extended session supplies the non-empty timestamp 02:00:00 next day. -/
theorem c4_endTimestamp_witness :
    (⟨"20250102 02:00:00", "6 M", Mode.durationOnly⟩ : Resolved).endDateTimeStr ≠ "" :=
  c4_endTimestamp_nonempty.1 none none "6 M" true now0
    ⟨"20250102 02:00:00", "6 M", Mode.durationOnly⟩ rfl

/-- C5: the `market` timezone selector resolves to the same fixed zone (US
Eastern) for every symbol: the result never depends on the symbol. -/
theorem c5_market_zone_symbol_independent :
    ∀ (s1 s2 : String), get_target_timezone "market" s1 = get_target_timezone "market" s2 := by
  have h : ∀ s, get_target_timezone "market" s = Zone.eastern := by
    intro s
    unfold get_target_timezone
    rw [if_neg (by decide), if_neg (by decide), if_pos rfl]
    split <;> rfl
  intro s1 s2
  rw [h s1, h s2]

/-- C10: a date string with an explicit midnight time of day is treated by
the resolver exactly like the bare date string (they parse to the same
value, and the resolver is a function of the parsed value alone), and the
session-close derivation is applied to it: 16:00:00 same day for Regular,
02:00:00 next day for Extended, not the explicit midnight verbatim. -/
theorem c10_midnight_equals_dateonly :
    ∀ (sPlain sMid : String) (dt : DateTime),
      parse_date_string sPlain = some dt → parse_date_string sMid = some dt →
      hasTimeB dt = false →
      ∀ (o : Option String) (dflt : String) (eth : Bool) (now : DateTime),
        process_date_arguments o (some sMid) dflt eth now =
          process_date_arguments o (some sPlain) dflt eth now ∧
        process_date_arguments (some sMid) o dflt eth now =
          process_date_arguments (some sPlain) o dflt eth now ∧
        (∀ (r : Resolved), process_date_arguments o (some sMid) dflt eth now = .ok r →
          r.endDateTimeStr =
            (if eth then strftimeIB (setTime (addOneDay dt) 2 0 0)
             else strftimeIB (setTime dt 16 0 0))) := by
  intro sPlain sMid dt hp hm hmid o dflt eth now
  have heq : parseOptArg (some sMid) = parseOptArg (some sPlain) := by
    rw [parseOptArg_of_parse hp, parseOptArg_of_parse hm]
  refine ⟨?_, ?_, ?_⟩
  · unfold process_date_arguments
    rw [heq]
  · unfold process_date_arguments
    rw [heq]
  · intro r h
    have := process_ok_end_anchor (parseOptArg_of_parse hm) h
    rw [this, hmid]
    rfl

/-- C10 witness: `2024-01-31 00:00` resolves identically to `2024-01-31`
as the end of a Regular-session range starting 2024-01-15. -/
theorem c10_midnight_witness :
    process_date_arguments (some "2024-01-15") (some "2024-01-31 00:00") "1 Y" false now0 =
      process_date_arguments (some "2024-01-15") (some "2024-01-31") "1 Y" false now0 :=
  (c10_midnight_equals_dateonly "2024-01-31" "2024-01-31 00:00" ⟨2024, 1, 31, 0, 0, 0⟩
    rfl rfl rfl (some "2024-01-15") "1 Y" false now0).1

theorem str_append_assoc (a b c : String) : a ++ b ++ c = a ++ (b ++ c) := by
  cases a
  cases b
  cases c
  show String.mk _ = String.mk _
  rw [List.append_assoc]

theorem joinUnderscore_snoc (xs : List String) (y : String) (h : xs ≠ []) :
    joinUnderscore (xs ++ [y]) = joinUnderscore xs ++ "_" ++ y := by
  induction xs with
  | nil => exact absurd rfl h
  | cons x rest ih =>
    cases rest with
    | nil => rfl
    | cons x2 rest2 =>
      have h1 : joinUnderscore ((x :: x2 :: rest2) ++ [y]) =
          x ++ "_" ++ joinUnderscore ((x2 :: rest2) ++ [y]) := rfl
      have h2 : joinUnderscore (x :: x2 :: rest2) = x ++ "_" ++ joinUnderscore (x2 :: rest2) := rfl
      rw [h1, ih (by simp), h2]
      simp only [str_append_assoc]

theorem join_eth_ne (P : List String) (hP : P ≠ []) :
    joinUnderscore ((P ++ ["ETH"]) ++ ["OHLCV"]) ++ ".csv" ≠
      joinUnderscore (P ++ ["OHLCV"]) ++ ".csv" := by
  intro h
  rw [joinUnderscore_snoc (P ++ ["ETH"]) "OHLCV" (by simp),
    joinUnderscore_snoc P "ETH" hP, joinUnderscore_snoc P "OHLCV" hP] at h
  have hl := congrArg String.length h
  simp only [String.length_append] at hl
  have e1 : ("_" : String).length = 1 := rfl
  have e2 : ("ETH" : String).length = 3 := rfl
  have e3 : ("OHLCV" : String).length = 5 := rfl
  have e4 : (".csv" : String).length = 4 := rfl
  rw [e1, e2, e3, e4] at hl
  omega

theorem gen_extended_flag_changes (symbol st du tf : String) (fm : Option String) :
    generate_filename symbol st du tf fm true ≠ generate_filename symbol st du tf fm false := by
  intro h
  exact join_eth_ne _ (by simp) h

theorem gen_future_month_irrelevant (symbol st du tf : String) (fm : Option String)
    (eth : Bool) (h : st ≠ "FUT") :
    generate_filename symbol st du tf fm eth = generate_filename symbol st du tf none eth := by
  have hst : (st == "FUT") = false := by
    simpa using h
  simp [generate_filename, hst]

/-- C6, counterexample: varying the futureMonth argument alone (from `none`
to `some "202409"`) while every other argument is fixed does not change the
generated filename when the security type is not `"FUT"`, refuting the claim
that varying any single argument changes the output. -/
theorem c6_vary_argument_counterexample :
    generate_filename "SPY" "STK" "1 Y" "1 day" (some "202409") false =
      generate_filename "SPY" "STK" "1 Y" "1 day" none false ∧
    (some "202409" : Option String) ≠ none ∧
    generate_filename "SPY" "STK" "1 Y" "1 day" none false = "SPY_STK_1Y_1d_OHLCV.csv" :=
  ⟨rfl, by decide, by rfl⟩

/-- C6 (amended): the filename generator is deterministic (identical
arguments give identical strings), and flipping the extended flag alone
always changes the output; but varying a single argument does not always
change it — the futureMonth argument is ignored whenever the security type
is not `"FUT"`. -/
theorem c6_filename_determinism :
    (∀ (symbol st du tf : String) (fm : Option String) (eth : Bool),
      generate_filename symbol st du tf fm eth = generate_filename symbol st du tf fm eth) ∧
    (∀ (symbol st du tf : String) (fm : Option String),
      generate_filename symbol st du tf fm true ≠ generate_filename symbol st du tf fm false) ∧
    (∀ (symbol st du tf : String) (fm : Option String) (eth : Bool), st ≠ "FUT" →
      generate_filename symbol st du tf fm eth = generate_filename symbol st du tf none eth) :=
  ⟨fun _ _ _ _ _ _ => rfl,
   gen_extended_flag_changes,
   gen_future_month_irrelevant⟩

/-- C6 witness: the futureMonth-irrelevance clause applied at the concrete
non-futures call. -/
theorem c6_filename_witness :
    generate_filename "SPY" "STK" "1 Y" "1 day" (some "202409") false =
      generate_filename "SPY" "STK" "1 Y" "1 day" none false :=
  c6_filename_determinism.2.2 "SPY" "STK" "1 Y" "1 day" (some "202409") false (by decide)

theorem ctrCand_inj (name ts ext : String) {c1 c2 : Nat}
    (h : ctrCand name ts ext c1 = ctrCand name ts ext c2) : c1 = c2 := by
  have hd := congrArg String.data h
  simp only [ctrCand, str_data_append, List.append_assoc] at hd
  have h1 := List.append_cancel_left hd
  have h2 := List.append_cancel_left h1
  have h3 := List.append_cancel_left h2
  have h4 := List.append_cancel_left h3
  have h5 := List.append_cancel_right h4
  calc c1 = decodeFrom 0 (padZeros 2 c1).data := (decode_padZeros 2 c1).symm
    _ = decodeFrom 0 (padZeros 2 c2).data := by rw [h5]
    _ = c2 := decode_padZeros 2 c2

theorem exists_free_counter (existing : List String) (name ts ext : String) :
    ∃ c, 1 ≤ c ∧ c ≤ existing.length + 1 ∧ ctrCand name ts ext c ∉ existing := by
  by_contra hcon
  push_neg at hcon
  have hinj : Set.InjOn (fun c => ctrCand name ts ext c)
      (Finset.Icc 1 (existing.length + 1)) :=
    fun a _ b _ hab => ctrCand_inj name ts ext hab
  have hsub : (Finset.Icc 1 (existing.length + 1)).image (fun c => ctrCand name ts ext c) ⊆
      existing.toFinset := by
    intro x hx
    rw [Finset.mem_image] at hx
    obtain ⟨c, hc, rfl⟩ := hx
    rw [Finset.mem_Icc] at hc
    exact List.mem_toFinset.2 (hcon c hc.1 hc.2)
  have hcard := Finset.card_le_card hsub
  rw [Finset.card_image_of_injOn hinj, Nat.card_Icc] at hcard
  have hle := List.toFinset_card_le existing
  omega

theorem findFree_spec (name ts ext : String) (existing : List String) :
    ∀ (fuel c0 : Nat),
      (∃ c, c0 ≤ c ∧ c < c0 + fuel ∧ ctrCand name ts ext c ∉ existing) →
      findFree name ts ext existing fuel c0 ∉ existing ∧
      ∃ c, c0 ≤ c ∧ findFree name ts ext existing fuel c0 = ctrCand name ts ext c := by
  intro fuel
  induction fuel with
  | zero =>
    intro c0 h
    obtain ⟨c, h1, h2, -⟩ := h
    omega
  | succ fuel ih =>
    intro c0 h
    by_cases hm : ctrCand name ts ext c0 ∈ existing
    · have hrec : findFree name ts ext existing (fuel + 1) c0 =
          findFree name ts ext existing fuel (c0 + 1) := by
        simp only [findFree, if_pos hm]
      obtain ⟨c, hc1, hc2, hc3⟩ := h
      have hcne : c ≠ c0 := by
        intro he
        rw [he] at hc3
        exact hc3 hm
      have hex : ∃ c, c0 + 1 ≤ c ∧ c < c0 + 1 + fuel ∧ ctrCand name ts ext c ∉ existing :=
        ⟨c, by omega, by omega, hc3⟩
      obtain ⟨ha, c2, hc2a, hc2b⟩ := ih (c0 + 1) hex
      exact ⟨hrec ▸ ha, c2, by omega, hrec ▸ hc2b⟩
    · have hrec : findFree name ts ext existing (fuel + 1) c0 = ctrCand name ts ext c0 := by
        simp only [findFree, if_neg hm]
      exact ⟨hrec ▸ hm, c0, le_refl c0, hrec⟩

/-- C7: if the original path and the timestamp-suffixed candidate both
already exist, `generate_unique_filename` returns a counter-suffixed
candidate `name_ts_NN.ext` for some counter ≥ 1 (rendered zero-padded to
two digits), and for every finite existing-path set the result is not
among the existing paths — the loop terminates on a fresh name. -/
theorem c7_unique_filename_fresh :
    ∀ (existing : List String) (base ts : String),
      base ∈ existing →
      (splitext base).1 ++ "_" ++ ts ++ (splitext base).2 ∈ existing →
      generate_unique_filename existing base ts ∉ existing ∧
      ∃ c, 1 ≤ c ∧ generate_unique_filename existing base ts =
        ctrCand (splitext base).1 ts (splitext base).2 c := by
  intro existing base ts hbase hts
  have hdef : generate_unique_filename existing base ts =
      findFree (splitext base).1 ts (splitext base).2 existing (existing.length + 1) 1 := by
    simp only [generate_unique_filename]
    rw [if_pos hbase, if_pos hts]
  obtain ⟨c, hc1, hc2, hc3⟩ := exists_free_counter existing (splitext base).1 ts (splitext base).2
  have hwin : ∃ cc, 1 ≤ cc ∧ cc < 1 + (existing.length + 1) ∧
      ctrCand (splitext base).1 ts (splitext base).2 cc ∉ existing :=
    ⟨c, hc1, by omega, hc3⟩
  obtain ⟨hni, cc, hcc1, hcc2⟩ :=
    findFree_spec (splitext base).1 ts (splitext base).2 existing (existing.length + 1) 1 hwin
  exact ⟨hdef ▸ hni, cc, hcc1, hdef ▸ hcc2⟩

/-- C7 witness: with both the base name and its timestamped rename taken,
the generator returns a path outside the existing set. -/
theorem c7_unique_filename_witness :
    generate_unique_filename ["SPY_OHLCV.csv", "SPY_OHLCV_20250904_163045.csv"]
      "SPY_OHLCV.csv" "20250904_163045" ∉
      (["SPY_OHLCV.csv", "SPY_OHLCV_20250904_163045.csv"] : List String) :=
  (c7_unique_filename_fresh ["SPY_OHLCV.csv", "SPY_OHLCV_20250904_163045.csv"]
    "SPY_OHLCV.csv" "20250904_163045" (by decide) (by decide)).1

theorem handle_conflict_overwrite (existing : List String) (f : String) (choice : Choice)
    (ts : String) : handle_file_conflict existing f true choice ts = (f, true) := by
  simp only [handle_file_conflict]
  split <;> rfl

theorem isEmpty_false_of_ne_nil {bars : List String} (h : bars ≠ []) :
    bars.isEmpty = false := by
  cases bars with
  | nil => exact absurd rfl h
  | cons a l => rfl

/-- C8: with the output file already present, no overwrite flag and a Cancel
answer at the prompt, the conflict resolver returns `(path, false)`, the run
emits the cancellation message, writes nothing, reports no error, and still
disconnects normally. -/
theorem c8_cancel_skips_write :
    ∀ (symbol timeframe dflt : String) (outOpt : Option String) (startD endD : Option String)
      (eth : Bool) (env : Env) (r : Resolved),
      process_date_arguments startD endD dflt eth env.now = .ok r →
      env.connectOk = true → env.qualifyOk = true → env.bars ≠ [] →
      fetchOutName symbol timeframe r outOpt eth ∈ env.existing →
      env.choice = .cancel →
      handle_file_conflict env.existing (fetchOutName symbol timeframe r outOpt eth) false
          env.choice env.ts = (fetchOutName symbol timeframe r outOpt eth, false) ∧
      (∀ (p : String) (rows : List String),
        Event.write p rows ∉ fetch_and_save symbol timeframe dflt outOpt false startD endD eth env) ∧
      Event.cancelMsg ∈ fetch_and_save symbol timeframe dflt outOpt false startD endD eth env ∧
      (∀ p, Event.savedMsg p ∉ fetch_and_save symbol timeframe dflt outOpt false startD endD eth env) ∧
      (∀ e, Event.errorExit e ∉ fetch_and_save symbol timeframe dflt outOpt false startD endD eth env) ∧
      Event.disconnect ∈ fetch_and_save symbol timeframe dflt outOpt false startD endD eth env := by
  intro symbol timeframe dflt outOpt startD endD eth env r hr hc hq hb hex hch
  have hconf : handle_file_conflict env.existing (fetchOutName symbol timeframe r outOpt eth)
      false env.choice env.ts = (fetchOutName symbol timeframe r outOpt eth, false) := by
    simp only [handle_file_conflict, hch]
    rw [if_pos hex]
    rfl
  have htr : fetch_and_save symbol timeframe dflt outOpt false startD endD eth env =
      [.connectAttempt, .request] ++
        (if (convertDateColumn env.pdParse env.fmtRow env.bars).2 then [.warnUnparseable]
         else []) ++ [.cancelMsg, .disconnect] := by
    simp only [fetch_and_save, hr]
    rw [hc, hq, isEmpty_false_of_ne_nil hb]
    rw [if_neg (by decide), if_neg (by decide), if_neg (by decide)]
    rw [hconf]
    rfl
  refine ⟨hconf, ?_, ?_, ?_, ?_, ?_⟩ <;> rw [htr]
  · intro p rows
    by_cases hw : (convertDateColumn env.pdParse env.fmtRow env.bars).2 = true <;>
      simp [hw]
  · by_cases hw : (convertDateColumn env.pdParse env.fmtRow env.bars).2 = true <;>
      simp [hw]
  · intro p
    by_cases hw : (convertDateColumn env.pdParse env.fmtRow env.bars).2 = true <;>
      simp [hw]
  · intro e
    by_cases hw : (convertDateColumn env.pdParse env.fmtRow env.bars).2 = true <;>
      simp [hw]
  · by_cases hw : (convertDateColumn env.pdParse env.fmtRow env.bars).2 = true <;>
      simp [hw]

/-- C8 witness: the concrete cancelled run neither writes nor errors and
shows the cancellation message. -/
theorem c8_cancel_witness :
    Event.cancelMsg ∈
      fetch_and_save "SPY" "1 day" "1 Y" (some "out.csv") false none none false envC8 :=
  (c8_cancel_skips_write "SPY" "1 day" "1 Y" (some "out.csv") none none false envC8
    ⟨format_ibkr_datetime false now0 false, "1 Y", .durationOnly⟩
    rfl rfl rfl (by decide) (by decide) rfl).2.2.1

theorem parseAllRows_none {p : String → Option DateTime} :
    ∀ (col : List String), (∃ s, s ∈ col ∧ p s = none) → parseAllRows p col = none := by
  intro col
  induction col with
  | nil =>
    rintro ⟨s, hs, -⟩
    cases hs
  | cons a rest ih =>
    rintro ⟨s, hs, hp⟩
    rw [List.mem_cons] at hs
    simp only [parseAllRows]
    cases hsa : p a with
    | none => rfl
    | some dt =>
      have hsr : s ∈ rest := by
        cases hs with
        | inl he =>
          rw [he, hsa] at hp
          cases hp
        | inr hr => exact hr
      rw [ih ⟨s, hsr, hp⟩]
      rfl

/-- C9: when some row timestamp of a string-typed date column fails to
parse, the conversion step returns the column unchanged with the warning
flag set, and the run still proceeds through conflict handling to the file
write — the batch is not aborted, the written rows are the original
timestamps, and no error is reported. -/
theorem c9_unparseable_keeps_rows :
    (∀ (p : String → Option DateTime) (fmt : DateTime → String) (col : List String),
      (∃ s, s ∈ col ∧ p s = none) →
      convertDateColumn p fmt col = (col, true)) ∧
    (∀ (symbol timeframe dflt fnameStr : String) (eth : Bool) (env : Env),
      env.connectOk = true → env.qualifyOk = true → env.bars ≠ [] →
      (∃ s, s ∈ env.bars ∧ env.pdParse s = none) →
      Event.warnUnparseable ∈
        fetch_and_save symbol timeframe dflt (some fnameStr) true none none eth env ∧
      Event.write fnameStr env.bars ∈
        fetch_and_save symbol timeframe dflt (some fnameStr) true none none eth env ∧
      Event.savedMsg fnameStr ∈
        fetch_and_save symbol timeframe dflt (some fnameStr) true none none eth env ∧
      (∀ e, Event.errorExit e ∉
        fetch_and_save symbol timeframe dflt (some fnameStr) true none none eth env)) := by
  have hconv : ∀ (p : String → Option DateTime) (fmt : DateTime → String) (col : List String),
      (∃ s, s ∈ col ∧ p s = none) → convertDateColumn p fmt col = (col, true) := by
    intro p fmt col hex
    simp only [convertDateColumn]
    rw [parseAllRows_none col hex]
  refine ⟨hconv, ?_⟩
  intro symbol timeframe dflt fnameStr eth env hc hq hb hex
  have hps : process_date_arguments none none dflt eth env.now =
      .ok ⟨format_ibkr_datetime eth env.now false, dflt, .durationOnly⟩ := rfl
  have htr : fetch_and_save symbol timeframe dflt (some fnameStr) true none none eth env =
      [.connectAttempt, .request] ++ [.warnUnparseable] ++
        [.write fnameStr env.bars, .savedMsg fnameStr, .disconnect] := by
    simp only [fetch_and_save, hps]
    rw [hc, hq, isEmpty_false_of_ne_nil hb]
    rw [if_neg (by decide), if_neg (by decide), if_neg (by decide)]
    rw [hconv env.pdParse env.fmtRow env.bars hex]
    rw [handle_conflict_overwrite]
    rfl
  rw [htr]
  refine ⟨by simp, by simp, by simp, ?_⟩
  intro e
  simp

/-- C9 witness: a concrete run whose only bar timestamp is unparseable
still writes the original row. -/
theorem c9_unparseable_witness :
    Event.write "out.csv" envW.bars ∈
      fetch_and_save "SPY" "1 day" "1 Y" (some "out.csv") true none none false envW :=
  ((c9_unparseable_keeps_rows.2 "SPY" "1 day" "1 Y" "out.csv" false envW
    rfl rfl (by decide) ⟨"b", by decide, rfl⟩).2).1
